import Mathlib

/-!
Verification of the review-format-kit core (textarea detection, template
insertion, dropdown/keyboard interaction) against its natural-language
specification.

Text is modelled as `List Char` (a JS string), offsets as `Nat`.  Each
definition is a direct shallow embedding of the corresponding function of
the repository source; the source file and function are named in the doc
comment of every definition.
-/

namespace RFK

/-!
### Leftmost-match scanning

Both the placeholder regex of `template-inserter.ts` and the
case-insensitive placeholder search of `selectPlaceholder` return the
index of the leftmost position whose suffix satisfies a test, exactly as
a JS regex `String.match` scans start positions left to right.  `scanIdx`
captures that shared scanning loop; the two call sites instantiate the
test `p` with their respective per-position match predicate.
-/

/-- Index of the leftmost position `i` of `s` whose suffix `s.drop i`
satisfies `p` (only positions `i < s.length` are tried), `none` if no
position matches. -/
def scanIdx (p : List Char → Bool) : List Char → Option Nat
  | [] => none
  | c :: rest => if p (c :: rest) then some 0 else (scanIdx p rest).map (· + 1)

theorem scanIdx_eq_some_iff (p : List Char → Bool) :
    ∀ (s : List Char) (i : Nat),
      scanIdx p s = some i ↔
        (i < s.length ∧ p (s.drop i) = true ∧ ∀ j, j < i → p (s.drop j) = false) := by
  intro s
  induction s with
  | nil => intro i; simp [scanIdx]
  | cons c rest ih =>
    intro i
    by_cases hp : p (c :: rest) = true
    · constructor
      · intro h
        simp only [scanIdx, hp, if_pos] at h
        injection h with h
        subst h
        exact ⟨by simp, by simpa using hp, fun j hj => absurd hj (by omega)⟩
      · rintro ⟨hlen, hdrop, hmin⟩
        cases i with
        | zero => simp [scanIdx, hp]
        | succ n =>
          have h0 := hmin 0 (Nat.succ_pos n)
          rw [List.drop_zero] at h0
          rw [h0] at hp
          exact absurd hp (by simp)
    · have hp' : p (c :: rest) = false := by
        cases hpv : p (c :: rest)
        · rfl
        · exact absurd hpv hp
      constructor
      · intro h
        simp only [scanIdx, hp', Bool.false_eq_true, if_false, Option.map_eq_some'] at h
        obtain ⟨i', hi', rfl⟩ := h
        obtain ⟨h1, h2, h3⟩ := (ih i').mp hi'
        refine ⟨by simpa using Nat.succ_lt_succ h1, by simpa using h2, ?_⟩
        intro j hj
        cases j with
        | zero => simpa using hp'
        | succ k => simpa using h3 k (by omega)
      · rintro ⟨hlen, hdrop, hmin⟩
        cases i with
        | zero =>
          rw [List.drop_zero] at hdrop
          rw [hdrop] at hp'
          exact absurd hp' (by simp)
        | succ n =>
          have hrest : scanIdx p rest = some n := by
            refine (ih n).mpr ⟨by simpa using hlen, by simpa using hdrop, ?_⟩
            intro j hj
            simpa using hmin (j + 1) (by omega)
          simp [scanIdx, hp', hrest]

theorem scanIdx_eq_none_iff (p : List Char → Bool) :
    ∀ s : List Char, scanIdx p s = none ↔ ∀ i, i < s.length → p (s.drop i) = false := by
  intro s
  induction s with
  | nil => simp [scanIdx]
  | cons c rest ih =>
    by_cases hp : p (c :: rest) = true
    · constructor
      · intro h
        simp [scanIdx, hp] at h
      · intro h
        have h0 := h 0 (by simp)
        rw [List.drop_zero] at h0
        rw [h0] at hp
        exact absurd hp (by simp)
    · have hp' : p (c :: rest) = false := by
        cases hpv : p (c :: rest)
        · rfl
        · exact absurd hpv hp
      constructor
      · intro h
        simp only [scanIdx, hp', Bool.false_eq_true, if_false, Option.map_eq_none'] at h
        intro i hi
        cases i with
        | zero => simpa using hp'
        | succ k => simpa using (ih.mp h) k (by simpa using hi)
      · intro h
        have hrest : scanIdx p rest = none := by
          refine ih.mpr ?_
          intro i hi
          simpa using h (i + 1) (by simpa using hi)
        simp [scanIdx, hp', hrest]

/-!
### Template inserter — pure splicing core

Shallow embedding of `src/content/template-inserter.ts`.  `insertTemplate`
there reads the cursor position `c` and the current value `T`, builds
`formattedTemplate` by prepending a newline prefix to the template body,
splices it into `T` at `c`, and computes the resulting cursor position
with `findFirstPlaceholder`.
-/

/-- The newline prefix that `insertTemplate` prepends to the template body
(the difference between `formattedTemplate` and `template` in the source,
lines 22–33): two newlines when the field is non-empty, the cursor is not
at the start, and the character before the cursor is not a newline; one
newline when instead that character is a newline, `c > 1`, and the
character two before is not a newline; nothing otherwise.  JS indexing
`value[i]` out of range yields `undefined`, which compares `!== '\n'`;
`List.get?` mirrors that with `none ≠ some '\n'`. -/
def insertionPrefixChars (T : List Char) (c : Nat) : List Char :=
  if 0 < T.length ∧ 0 < c then
    if T[c - 1]? ≠ some '\n' then ['\n', '\n']
    else if 1 < c ∧ T[c - 2]? ≠ some '\n' then ['\n']
    else []
  else []

/-- `formattedTemplate` of `insertTemplate`: the prefixed template body. -/
def formattedTemplate (T : List Char) (c : Nat) (B : List Char) : List Char :=
  insertionPrefixChars T c ++ B

/-- `newValue` of `insertTemplate` (lines 36–39): the spliced content
`currentValue.substring(0, c) + formattedTemplate + currentValue.substring(c)`. -/
def insertedContent (T : List Char) (c : Nat) (B : List Char) : List Char :=
  T.take c ++ formattedTemplate T c B ++ T.drop c

/-- Per-position match test of the regex `/<([^>]+)>/`: a match starts at
a position holding `'<'` whose remainder contains a `'>'` that is not its
first character (so at least one non-`'>'` character sits between the
brackets; `[^>]+` is greedy up to exactly the first `'>'`). -/
def placeholderTest : List Char → Bool
  | [] => false
  | c :: rest => c == '<' && (rest.head? != some '>' && rest.contains '>')

/-- Index of the first `/<([^>]+)>/` match in `s` (`match.index` of the
source), `none` when the regex does not match. -/
def firstPlaceholderIdx (s : List Char) : Option Nat :=
  scanIdx placeholderTest s

/-- `findFirstPlaceholder` of `template-inserter.ts` (lines 85–96):
`basePosition + match.index` when the placeholder regex matches the
template, `basePosition + template.length` otherwise. -/
def findFirstPlaceholder (template : List Char) (basePosition : Nat) : Nat :=
  match firstPlaceholderIdx template with
  | some i => basePosition + i
  | none => basePosition + template.length

/-- The cursor position `insertTemplate` returns on a successful run
(line 48): `findFirstPlaceholder(formattedTemplate, insertionPos)` with
`insertionPos = cursorPos`. -/
def insertCursorPos (T : List Char) (c : Nat) (B : List Char) : Nat :=
  findFirstPlaceholder (formattedTemplate T c B) c

/-- The prefix exactly as the claim C1 words it: `"\n\n"` when `T` is
non-empty, `c > 0` and `T[c-1]` is not a newline; `"\n"` when `T` is
non-empty, `c > 1`, `T[c-1]` is a newline and `T[c-2]` is not; empty in
every other case.  Stated from the claim, for comparison with
`insertionPrefixChars`, which is stated from the source. -/
def claimPrefixChars (T : List Char) (c : Nat) : List Char :=
  if T ≠ [] ∧ 0 < c ∧ T[c - 1]? ≠ some '\n' then ['\n', '\n']
  else if T ≠ [] ∧ 1 < c ∧ T[c - 1]? = some '\n' ∧ T[c - 2]? ≠ some '\n' then ['\n']
  else []

theorem insertionPrefixChars_eq_claim (T : List Char) (c : Nat) :
    insertionPrefixChars T c = claimPrefixChars T c := by
  unfold insertionPrefixChars claimPrefixChars
  by_cases hT : T = []
  · subst hT; simp
  · have hlen : 0 < T.length := List.length_pos.mpr hT
    by_cases hc : 0 < c
    · by_cases h1 : T[c - 1]? = some '\n'
      · by_cases h2 : 1 < c ∧ T[c - 2]? ≠ some '\n'
        · simp [hT, hc, hlen, h1, h2]
        · simp [hT, hc, hlen, h1, h2]
      · simp [hT, hc, hlen, h1]
    · have hc1 : ¬1 < c := by omega
      simp [hc, hc1]

/-- A placeholder span of the claims: at offset `i` the text has a `'<'`,
then at least one character none of which is `'>'`, then `'>'`. -/
def spanAt (s : List Char) (i : Nat) : Prop :=
  ∃ t u, t ≠ [] ∧ '>' ∉ t ∧ s.drop i = '<' :: (t ++ '>' :: u)

theorem mem_exists_first_split (a : Char) :
    ∀ l : List Char, a ∈ l → ∃ t u, a ∉ t ∧ l = t ++ a :: u := by
  intro l
  induction l with
  | nil => intro h; exact absurd h (List.not_mem_nil a)
  | cons c rest ih =>
    intro h
    by_cases hc : c = a
    · exact ⟨[], rest, by simp, by simp [hc]⟩
    · have hmem : a ∈ rest := by
        rcases List.mem_cons.mp h with h' | h'
        · exact absurd h'.symm hc
        · exact h'
      obtain ⟨t, u, hnot, heq⟩ := ih hmem
      refine ⟨c :: t, u, ?_, by simp [heq]⟩
      intro hmem'
      rcases List.mem_cons.mp hmem' with h' | h'
      · exact hc h'.symm
      · exact hnot h'

theorem placeholderTest_eq_true_iff (s : List Char) :
    placeholderTest s = true ↔ ∃ t u, t ≠ [] ∧ '>' ∉ t ∧ s = '<' :: (t ++ '>' :: u) := by
  cases s with
  | nil =>
    simp [placeholderTest]
  | cons c rest =>
    simp only [placeholderTest, Bool.and_eq_true, beq_iff_eq, bne_iff_ne, ne_eq,
      List.contains_eq_any_beq, List.any_eq_true, beq_iff_eq, exists_eq_right]
    constructor
    · rintro ⟨hc, hhead, hmem⟩
      obtain ⟨x, hx, rfl⟩ := hmem
      obtain ⟨t, u, hnot, heq⟩ := mem_exists_first_split '>' rest hx
      refine ⟨t, u, ?_, hnot, ?_⟩
      · rintro rfl
        rw [heq] at hhead
        simp at hhead
      · rw [hc, heq]
    · rintro ⟨t, u, htne, hnot, heq⟩
      injection heq with hc hrest
      refine ⟨hc, ?_, ?_⟩
      · cases t with
        | nil => exact absurd rfl htne
        | cons x t' =>
          rw [hrest]
          have hx : x ≠ '>' := fun h => hnot (h ▸ List.mem_cons_self x t')
          simp [hx]
      · rw [hrest]
        simp

theorem spanAt_iff_test (s : List Char) (i : Nat) :
    spanAt s i ↔ placeholderTest (s.drop i) = true := by
  rw [spanAt, placeholderTest_eq_true_iff]

theorem spanAt_lt_length {s : List Char} {i : Nat} (h : spanAt s i) : i < s.length := by
  obtain ⟨t, u, -, -, hdrop⟩ := h
  by_contra hge
  rw [List.drop_eq_nil_of_le (by omega)] at hdrop
  exact List.noConfusion hdrop

/-- C2: the cursor position returned by a successful insertion from
cursor offset `c`.  When the inserted text `prefix ++ B` has a
placeholder span and `i` is the offset of the first one, the result is
`c + i` (the offset of that span's opening `'<'` in the final content);
when the inserted text has no placeholder span, the result is
`c + (prefix.length + B.length)`, the end of the inserted text. -/
theorem insertCursorPos_spec (T B : List Char) (c : Nat) :
    (∀ i, spanAt (formattedTemplate T c B) i →
        (∀ j, j < i → ¬ spanAt (formattedTemplate T c B) j) →
        insertCursorPos T c B = c + i) ∧
    ((∀ i, ¬ spanAt (formattedTemplate T c B) i) →
        insertCursorPos T c B = c + ((insertionPrefixChars T c).length + B.length)) := by
  constructor
  · intro i hi hmin
    have hfirst : firstPlaceholderIdx (formattedTemplate T c B) = some i := by
      rw [firstPlaceholderIdx, scanIdx_eq_some_iff]
      refine ⟨spanAt_lt_length hi, (spanAt_iff_test _ _).mp hi, ?_⟩
      intro j hj
      have hns := hmin j hj
      rw [spanAt_iff_test] at hns
      exact Bool.not_eq_true _ ▸ hns
    simp [insertCursorPos, findFirstPlaceholder, hfirst]
  · intro h
    have hnone : firstPlaceholderIdx (formattedTemplate T c B) = none := by
      rw [firstPlaceholderIdx, scanIdx_eq_none_iff]
      intro i _
      have hns := h i
      rw [spanAt_iff_test] at hns
      exact Bool.not_eq_true _ ▸ hns
    unfold insertCursorPos findFirstPlaceholder
    rw [hnone]
    simp [formattedTemplate]

/-- Witness for C2: inserting `"ab <x>"` into an empty field at offset 0
puts the cursor on the `'<'` at offset 3; inserting `"abc"` (no
placeholder) puts it at the end. -/
theorem insertCursorPos_spec_witness :
    insertCursorPos [] 0 ("ab <x>".toList) = 0 + 3 ∧
    insertCursorPos [] 0 ("abc".toList) =
      0 + ((insertionPrefixChars [] 0).length + ("abc".toList).length) := by
  constructor
  · refine (insertCursorPos_spec [] ("ab <x>".toList) 0).1 3 ?_ ?_
    · exact ⟨['x'], [], by decide, by decide, by decide⟩
    · intro j hj
      rw [spanAt_iff_test]
      interval_cases j <;> decide
  · refine (insertCursorPos_spec [] ("abc".toList) 0).2 ?_
    intro i hsp
    have hlt : i < (formattedTemplate [] 0 ("abc".toList)).length := spanAt_lt_length hsp
    rw [spanAt_iff_test] at hsp
    have hlen : (formattedTemplate [] 0 ("abc".toList)).length = 3 := by decide
    rw [hlen] at hlt
    interval_cases i <;> revert hsp <;> decide

/-- C1: for every textarea content `T`, cursor offset `c` and template
body `B`, insertion sets the content to
`T.take c ++ prefix ++ B ++ T.drop c`, where `prefix` is the
claim-described newline prefix (two newlines after a non-newline
character, one newline closing a partial blank line, nothing otherwise —
in particular nothing when `T` is empty or `c = 0`).  Proved for all `c`,
so in particular for `0 ≤ c ≤ T.length`. -/
theorem insertedContent_eq_claim_splice (T B : List Char) (c : Nat) :
    insertedContent T c B = T.take c ++ claimPrefixChars T c ++ B ++ T.drop c := by
  unfold insertedContent formattedTemplate
  rw [insertionPrefixChars_eq_claim]
  simp [List.append_assoc]

/-!
### Template inserter — exception boundary (claim C7)

`insertTemplate` wraps its whole body in `try/catch`.  Each DOM access of
the body can throw; the field is therefore modelled as a behaviour record
whose operations return `Except` with a thrown message on the error side.
The body is the sequence of effects of the source in source order:
read `selectionStart` (`getCursorPosition`, with `null` collapsed to 0 by
`|| 0`), read `value`, assign the spliced `newValue`, dispatch the
`input` event, set the cursor with `setSelectionRange`, and `focus`.
-/

/-- `InsertionResult` of `template-inserter.ts`. -/
structure InsertionResult where
  success : Bool
  cursorPosition : Nat
  error : Option (List Char)
deriving DecidableEq, Repr

/-- Outcomes of the individual DOM operations `insertTemplate` performs
on its textarea: each either succeeds with its value or throws a
message. -/
structure FieldBehavior where
  selectionStart : Except (List Char) (Option Nat)
  value : Except (List Char) (List Char)
  setValue : List Char → Except (List Char) Unit
  dispatchInput : Except (List Char) Unit
  setSelectionRange : Nat → Except (List Char) Unit
  focus : Except (List Char) Unit

/-- The `try` body of `insertTemplate` (lines 16–57): the effects in
source order, stopping at the first thrown exception. -/
def insertTemplateRun (f : FieldBehavior) (template : List Char) :
    Except (List Char) Nat :=
  match f.selectionStart with
  | Except.error e => Except.error e
  | Except.ok sel =>
    let cursorPos := sel.getD 0
    match f.value with
    | Except.error e => Except.error e
    | Except.ok currentValue =>
      match f.setValue (insertedContent currentValue cursorPos template) with
      | Except.error e => Except.error e
      | Except.ok _ =>
        match f.dispatchInput with
        | Except.error e => Except.error e
        | Except.ok _ =>
          let newCursorPos :=
            findFirstPlaceholder (formattedTemplate currentValue cursorPos template) cursorPos
          match f.setSelectionRange newCursorPos with
          | Except.error e => Except.error e
          | Except.ok _ =>
            match f.focus with
            | Except.error e => Except.error e
            | Except.ok _ => Except.ok newCursorPos

/-- `insertTemplate` with its `catch`: a thrown message `e` becomes the
structured result `{success := false, cursorPosition := 0, error := e}`,
a completed run returns `{success := true, cursorPosition}`. -/
def insertTemplate (f : FieldBehavior) (template : List Char) : InsertionResult :=
  match insertTemplateRun f template with
  | Except.ok pos => ⟨true, pos, none⟩
  | Except.error e => ⟨false, 0, some e⟩

/-- C7: `insertTemplate` never propagates an exception: every call
returns either the structured failure `{success := false,
cursorPosition := 0, error := the thrown message}` or, when no
operation throws, `{success := true, cursorPosition := the computed
cursor position, error := none}`. -/
theorem insertTemplate_exception_boundary (f : FieldBehavior) (B : List Char) :
    (∃ e, insertTemplateRun f B = Except.error e ∧
        insertTemplate f B = ⟨false, 0, some e⟩) ∨
    (∃ sel T, f.selectionStart = Except.ok sel ∧ f.value = Except.ok T ∧
        insertTemplate f B = ⟨true, insertCursorPos T (sel.getD 0) B, none⟩) := by
  rcases hsel : f.selectionStart with e | sel
  · exact Or.inl ⟨e, by simp [insertTemplateRun, hsel], by simp [insertTemplate, insertTemplateRun, hsel]⟩
  · rcases hval : f.value with e | T
    · exact Or.inl ⟨e, by simp [insertTemplateRun, hsel, hval],
        by simp [insertTemplate, insertTemplateRun, hsel, hval]⟩
    · rcases hsv : f.setValue (insertedContent T (sel.getD 0) B) with e | u
      · exact Or.inl ⟨e, by simp [insertTemplateRun, hsel, hval, hsv],
          by simp [insertTemplate, insertTemplateRun, hsel, hval, hsv]⟩
      · rcases hdi : f.dispatchInput with e | u2
        · exact Or.inl ⟨e, by simp [insertTemplateRun, hsel, hval, hsv, hdi],
            by simp [insertTemplate, insertTemplateRun, hsel, hval, hsv, hdi]⟩
        · rcases hsr : f.setSelectionRange
              (findFirstPlaceholder (formattedTemplate T (sel.getD 0) B) (sel.getD 0)) with e | u3
          · exact Or.inl ⟨e, by simp [insertTemplateRun, hsel, hval, hsv, hdi, hsr],
              by simp [insertTemplate, insertTemplateRun, hsel, hval, hsv, hdi, hsr]⟩
          · rcases hfo : f.focus with e | u4
            · exact Or.inl ⟨e, by simp [insertTemplateRun, hsel, hval, hsv, hdi, hsr, hfo],
                by simp [insertTemplate, insertTemplateRun, hsel, hval, hsv, hdi, hsr, hfo]⟩
            · exact Or.inr ⟨sel, T, rfl, rfl,
                by simp [insertTemplate, insertTemplateRun, hsel, hval, hsv, hdi, hsr, hfo,
                  insertCursorPos]⟩

/-!
### Template inserter — placeholder selection (claim C8)

`selectPlaceholder(textarea, placeholderText)` builds
`new RegExp('<' + placeholderText + '>', 'i')` — with no escaping, so
the name is interpreted as a regex pattern, not a literal — scans the
value for its first match, and either selects exactly the matched range
(and focuses the field) returning `true`, or returns `false` touching
nothing.  The embedding interprets the constructed pattern for the
fragment in which every pattern character is either the `.` wildcard or
a literal: within that fragment a match has the pattern's length and the
per-position test is the character-by-character `regexCharTest`
comparison under the `i` flag.  Every theorem below stays inside the
fragment (the counterexample's name uses only `.`; the amended claim
excludes every regex metacharacter, making the pattern literal), so the
model agrees with the JS regex semantics on every input a theorem
mentions.
-/

/-- Lower-casing of a JS string (`toLowerCase`, ASCII range). -/
def lowerStr (s : List Char) : List Char := s.map Char.toLower

/-- The regex metacharacters of JS patterns (the characters that
`RegExp` escaping would have to protect; the source does not escape
them). -/
def regexMetaChars : List Char :=
  ['\\', '^', '$', '.', '*', '+', '?', '(', ')', '[', ']', '\x7b', '\x7d', '|']

/-- One pattern character against one text character, under the `i`
flag: `.` matches anything but a line terminator; any other character of
the fragment matches case-insensitively. -/
def regexCharTest (p c : Char) : Bool :=
  if p = '.' then
    !(c = '\n' || c = '\r' || c = Char.ofNat 0x2028 || c = Char.ofNat 0x2029)
  else
    p.toLower == c.toLower

/-- Per-position match test of the constructed pattern against a suffix
of the value (fragment semantics: character by character, match length =
pattern length). -/
def regexIsPrefixOf : List Char → List Char → Bool
  | [], _ => true
  | _ :: _, [] => false
  | p :: ps, v :: vs => regexCharTest p v && regexIsPrefixOf ps vs

/-- Case-insensitive literal "pattern is a prefix of the text here"
comparison: what `regexIsPrefixOf` degenerates to when the pattern holds
no metacharacter. -/
def ciIsPrefixOf : List Char → List Char → Bool
  | [], _ => true
  | _ :: _, [] => false
  | p :: ps, v :: vs => (p.toLower == v.toLower) && ciIsPrefixOf ps vs

/-- A textarea as `selectPlaceholder` sees it: full text, selection range
endpoints, and focus flag. -/
structure Field where
  value : List Char
  selStart : Nat
  selEnd : Nat
  focused : Bool
deriving DecidableEq, Repr

/-- `selectPlaceholder` of `template-inserter.ts` (lines 102–116): on the
first match of the unescaped pattern `<placeholderText>` under the `i`
flag, set the selection to `[match.index, match.index + match[0].length)`
and focus, returning `true`; otherwise return `false` and leave the
field untouched. -/
def selectPlaceholder (f : Field) (placeholderText : List Char) : Bool × Field :=
  let pat := '<' :: (placeholderText ++ ['>'])
  match scanIdx (fun t => regexIsPrefixOf pat t) f.value with
  | some i => (true, { f with selStart := i, selEnd := i + pat.length, focused := true })
  | none => (false, f)

/-- The claim-side occurrence predicate: at offset `i` of `s` there is a
substring `w` of the pattern's length that equals the pattern up to
letter case. -/
def ciOccursAt (s pat : List Char) (i : Nat) : Prop :=
  ∃ w r, w.length = pat.length ∧ lowerStr w = lowerStr pat ∧ s.drop i = w ++ r

theorem ciIsPrefixOf_eq_true_iff :
    ∀ (pat t : List Char), ciIsPrefixOf pat t = true ↔
      ∃ w r, w.length = pat.length ∧ lowerStr w = lowerStr pat ∧ t = w ++ r := by
  intro pat
  induction pat with
  | nil =>
    intro t
    constructor
    · intro _
      exact ⟨[], t, rfl, rfl, rfl⟩
    · intro _
      rfl
  | cons p ps ih =>
    intro t
    cases t with
    | nil =>
      constructor
      · intro h
        exact absurd h (by simp [ciIsPrefixOf])
      · rintro ⟨w, r, hlen, -, heq⟩
        have hw : w = [] := (List.append_eq_nil.mp heq.symm).1
        rw [hw] at hlen
        simp at hlen
    | cons v vs =>
      constructor
      · intro h
        simp only [ciIsPrefixOf, Bool.and_eq_true, beq_iff_eq] at h
        obtain ⟨hpv, hpre⟩ := h
        obtain ⟨w, r, hlen, hlow, heq⟩ := (ih vs).mp hpre
        refine ⟨v :: w, r, by simp [hlen], ?_, by simp [heq]⟩
        simp only [lowerStr, List.map_cons, List.cons.injEq]
        exact ⟨hpv.symm, hlow⟩
      · rintro ⟨w, r, hlen, hlow, heq⟩
        cases w with
        | nil => simp at hlen
        | cons x w' =>
          injection heq with hxv hrest
          subst hxv
          simp only [lowerStr, List.map_cons, List.cons.injEq] at hlow
          obtain ⟨hx, hlow'⟩ := hlow
          simp only [ciIsPrefixOf, Bool.and_eq_true, beq_iff_eq]
          refine ⟨hx.symm, ?_⟩
          exact (ih vs).mpr ⟨w', r, by simpa using hlen, hlow', hrest⟩

theorem ciOccursAt_iff (s pat : List Char) (i : Nat) :
    ciOccursAt s pat i ↔ ciIsPrefixOf pat (s.drop i) = true :=
  (ciIsPrefixOf_eq_true_iff pat (s.drop i)).symm

theorem ciOccursAt_lt_length {s pat : List Char} {i : Nat}
    (hpat : pat ≠ []) (h : ciOccursAt s pat i) : i < s.length := by
  obtain ⟨w, r, hlen, -, heq⟩ := h
  by_contra hge
  rw [List.drop_eq_nil_of_le (by omega)] at heq
  have hw : w = [] := (List.append_eq_nil.mp heq.symm).1
  rw [hw] at hlen
  exact hpat (List.length_eq_zero.mp hlen.symm)

theorem scanIdx_congr {p q : List Char → Bool} (h : ∀ t, p t = q t) :
    ∀ s : List Char, scanIdx p s = scanIdx q s := by
  intro s
  induction s with
  | nil => rfl
  | cons c rest ih => simp [scanIdx, h, ih]

theorem regexIsPrefixOf_eq_ci_of_no_dot :
    ∀ (pat t : List Char), (∀ ch ∈ pat, ch ≠ '.') →
      regexIsPrefixOf pat t = ciIsPrefixOf pat t := by
  intro pat
  induction pat with
  | nil =>
    intro t _
    cases t <;> rfl
  | cons p ps ih =>
    intro t h
    cases t with
    | nil => rfl
    | cons v vs =>
      have hp : p ≠ '.' := h p (List.mem_cons_self p ps)
      have hps : ∀ ch ∈ ps, ch ≠ '.' := fun ch hch => h ch (List.mem_cons_of_mem p hch)
      simp [regexIsPrefixOf, ciIsPrefixOf, regexCharTest, hp, ih vs hps]

/-- Counterexample to C8: the name `"a.c"` holds the regex wildcard `.`;
on the content `"<abc>"` the unescaped pattern matches at offset 0, so
`selectPlaceholder` selects the range `[0, 5)` and returns `true`, even
though the literal substring `"<a.c>"` does not occur in the content
case-insensitively — where the claim requires `false` with the field
left unchanged. -/
theorem selectPlaceholder_regex_name_counterexample :
    (∀ i, ¬ ciOccursAt ("<abc>".toList) ('<' :: ("a.c".toList ++ ['>'])) i) ∧
    selectPlaceholder ⟨"<abc>".toList, 0, 0, false⟩ ("a.c".toList) =
      (true, ⟨"<abc>".toList, 0, 5, true⟩) := by
  constructor
  · intro i hocc
    have hlt : i < ("<abc>".toList).length := ciOccursAt_lt_length (by simp) hocc
    rw [ciOccursAt_iff] at hocc
    have hlen : ("<abc>".toList).length = 5 := by decide
    rw [hlen] at hlt
    revert hocc
    interval_cases i <;> decide
  · decide

/-- C8 as amended: for every placeholder name free of regex
metacharacters — so that the unescaped constructed pattern `<name>` is a
literal — `selectPlaceholder` locates the first case-insensitive
occurrence of the literal substring `<name>`, sets the selection to span
exactly it (`selStart = i`, `selEnd = i + (name.length + 2)`) and
returns `true`; when no such occurrence exists it returns `false` and
leaves the whole field — in particular the selection — unchanged. -/
theorem selectPlaceholder_literal_spec (f : Field) (name : List Char)
    (hname : ∀ ch ∈ name, ch ∉ regexMetaChars) :
    (∀ i, ciOccursAt f.value ('<' :: (name ++ ['>'])) i →
        (∀ j, j < i → ¬ ciOccursAt f.value ('<' :: (name ++ ['>'])) j) →
        selectPlaceholder f name =
          (true, { f with selStart := i, selEnd := i + (name.length + 2), focused := true })) ∧
    ((∀ i, ¬ ciOccursAt f.value ('<' :: (name ++ ['>'])) i) →
        selectPlaceholder f name = (false, f)) := by
  have hnodot : ∀ ch ∈ ('<' :: (name ++ ['>'])), ch ≠ '.' := by
    intro ch hch
    rcases List.mem_cons.mp hch with rfl | hch
    · decide
    · rcases List.mem_append.mp hch with hch | hch
      · intro hd
        apply hname ch hch
        rw [hd]
        decide
      · have hgt : ch = '>' := by simpa using hch
        rw [hgt]
        decide
  have hscan : scanIdx (fun t => regexIsPrefixOf ('<' :: (name ++ ['>'])) t) f.value =
      scanIdx (fun t => ciIsPrefixOf ('<' :: (name ++ ['>'])) t) f.value :=
    scanIdx_congr (fun t => regexIsPrefixOf_eq_ci_of_no_dot _ t hnodot) f.value
  constructor
  · intro i hi hmin
    have hlt : i < f.value.length := ciOccursAt_lt_length (by simp) hi
    have hsome : scanIdx (fun t => ciIsPrefixOf ('<' :: (name ++ ['>'])) t) f.value = some i := by
      rw [scanIdx_eq_some_iff]
      refine ⟨hlt, (ciOccursAt_iff _ _ _).mp hi, ?_⟩
      intro j hj
      have hns := hmin j hj
      rw [ciOccursAt_iff] at hns
      exact Bool.not_eq_true _ ▸ hns
    have hplen : ('<' :: (name ++ ['>'])).length = name.length + 2 := by simp
    simp [selectPlaceholder, hscan, hsome, hplen]
  · intro h
    have hnone : scanIdx (fun t => ciIsPrefixOf ('<' :: (name ++ ['>'])) t) f.value = none := by
      rw [scanIdx_eq_none_iff]
      intro i _
      have hns := h i
      rw [ciOccursAt_iff] at hns
      exact Bool.not_eq_true _ ▸ hns
    simp [selectPlaceholder, hscan, hnone]

/-- Witness for the amended C8: in `"go <Here> now"` the
metacharacter-free name `"here"` is found case-insensitively at offset 3
and selected as the range `[3, 9)`; in `"nothing"` the name `"x"` is
absent and the field is untouched. -/
theorem selectPlaceholder_literal_spec_witness :
    selectPlaceholder ⟨"go <Here> now".toList, 0, 0, false⟩ ("here".toList) =
      (true, { (⟨"go <Here> now".toList, 0, 0, false⟩ : Field) with
        selStart := 3, selEnd := 3 + (("here".toList).length + 2), focused := true }) ∧
    selectPlaceholder ⟨"nothing".toList, 2, 5, false⟩ ("x".toList) =
      (false, ⟨"nothing".toList, 2, 5, false⟩) := by
  constructor
  · exact (selectPlaceholder_literal_spec ⟨"go <Here> now".toList, 0, 0, false⟩ ("here".toList)
      (by decide)).1 3
      ⟨"<Here>".toList, " now".toList, by decide, by decide, by decide⟩
      (by intro j hj; rw [ciOccursAt_iff]; interval_cases j <;> decide)
  · refine (selectPlaceholder_literal_spec ⟨"nothing".toList, 2, 5, false⟩ ("x".toList)
      (by decide)).2 ?_
    intro i hocc
    have hlt : i < ("nothing".toList).length := ciOccursAt_lt_length (by simp) hocc
    rw [ciOccursAt_iff] at hocc
    have hlen : ("nothing".toList).length = 7 := by decide
    rw [hlen] at hlt
    revert hocc
    interval_cases i <;> decide

/-!
### Textarea detector (claims C3, C9)

Shallow embedding of `src/content/textarea-detector.ts` (the variant the
specification was written from: the one checking placeholder text,
`"leave a comment"`, the `data-testid` composer container and the
markdown-editor ancestor).  A textarea is modelled by the attributes the
detector reads; each `closest(selector)` probe is a boolean field saying
whether such an ancestor exists.
-/

/-- JS `String.prototype.includes`: `containsStr s pat` is true when
`pat` occurs contiguously in `s` (checked as a prefix at each start
position, including the end-of-string position). -/
def containsStr : List Char → List Char → Bool
  | [], pat => pat.isPrefixOf []
  | c :: rest, pat => pat.isPrefixOf (c :: rest) || containsStr rest pat

/-- The attributes of a textarea element that `isCommentTextarea` and
`createDetectedTextarea` read. -/
structure TextareaAttrs where
  name : List Char
  ariaLabel : Option (List Char)
  placeholder : Option (List Char)
  elemId : List Char
  hasDataCommentId : Bool
  hasDataReviewId : Bool
  closestMarkerNewComment : Bool
  closestJsCommentField : Bool
  closestCommentFormTextarea : Bool
  closestTestidCommentComposer : Bool
  closestEditorContainer : Bool
deriving DecidableEq, Repr

/-- `element.getAttribute('aria-label')?.toLowerCase() || ''`. -/
def ariaLower (e : TextareaAttrs) : List Char :=
  (e.ariaLabel.map lowerStr).getD []

/-- `element.getAttribute('placeholder')?.toLowerCase() || ''`. -/
def placeholderLower (e : TextareaAttrs) : List Char :=
  (e.placeholder.map lowerStr).getD []

/-- `isCommentTextarea` of `textarea-detector.ts` (lines 33–75): strategy
1 checks comment/review in the aria-label, comment/review/markdown/"leave
a comment" in the placeholder, comment/review in the `name` and in the
`id`; strategy 2 checks the stable data attributes and ancestor
containers; strategy 3 accepts a markdown aria-label or comment
placeholder inside an editor container. -/
def isCommentTextarea (e : TextareaAttrs) : Bool :=
  let nameL := lowerStr e.name
  let aria := ariaLower e
  let ph := placeholderLower e
  let idL := lowerStr e.elemId
  if containsStr aria ("comment".toList) || containsStr aria ("review".toList) ||
      containsStr ph ("comment".toList) || containsStr ph ("review".toList) ||
      containsStr ph ("markdown".toList) || containsStr ph ("leave a comment".toList) ||
      containsStr nameL ("comment".toList) || containsStr nameL ("review".toList) ||
      containsStr idL ("comment".toList) || containsStr idL ("review".toList) then
    true
  else if e.hasDataCommentId || e.hasDataReviewId || e.closestMarkerNewComment ||
      e.closestJsCommentField || e.closestCommentFormTextarea ||
      e.closestTestidCommentComposer then
    true
  else if e.closestEditorContainer &&
      (containsStr aria ("markdown".toList) || containsStr ph ("comment".toList)) then
    true
  else
    false

/-- Counterexample to C9: a textarea whose accessible name contains
"markdown" but that matches no other signal is rejected by
`isCommentTextarea` — the code only accepts "markdown" in the
placeholder (strategy 1) or in the aria-label of a field inside an
editor container (strategy 3), not in a bare aria-label. -/
theorem isCommentTextarea_aria_markdown_not_detected :
    containsStr (lowerStr ("Markdown editor".toList)) ("markdown".toList) = true ∧
    isCommentTextarea
      ⟨[], some ("Markdown editor".toList), none, [],
        false, false, false, false, false, false, false⟩ = false := by
  decide

/-- C9 as amended: signal 1 is sufficient on its own for the substrings
the code actually checks there — "comment" or "review" in the
aria-label, and "comment", "review" or "markdown" in the placeholder
(each case-insensitive); no other signal is required. -/
theorem isCommentTextarea_signal1_sufficient (e : TextareaAttrs)
    (h : containsStr (ariaLower e) ("comment".toList) = true ∨
        containsStr (ariaLower e) ("review".toList) = true ∨
        containsStr (placeholderLower e) ("comment".toList) = true ∨
        containsStr (placeholderLower e) ("review".toList) = true ∨
        containsStr (placeholderLower e) ("markdown".toList) = true) :
    isCommentTextarea e = true := by
  have hA : (containsStr (ariaLower e) ("comment".toList) ||
      containsStr (ariaLower e) ("review".toList) ||
      containsStr (placeholderLower e) ("comment".toList) ||
      containsStr (placeholderLower e) ("review".toList) ||
      containsStr (placeholderLower e) ("markdown".toList) ||
      containsStr (placeholderLower e) ("leave a comment".toList) ||
      containsStr (lowerStr e.name) ("comment".toList) ||
      containsStr (lowerStr e.name) ("review".toList) ||
      containsStr (lowerStr e.elemId) ("comment".toList) ||
      containsStr (lowerStr e.elemId) ("review".toList)) = true := by
    simp only [Bool.or_eq_true]
    tauto
  unfold isCommentTextarea
  simp only [hA, if_true]

/-- Witness for the amended C9 at a concrete textarea whose aria-label
is "Leave a comment". -/
theorem isCommentTextarea_signal1_sufficient_witness :
    isCommentTextarea
      ⟨[], some ("Leave a comment".toList), none, [],
        false, false, false, false, false, false, false⟩ = true :=
  isCommentTextarea_signal1_sufficient _ (Or.inl (by decide))

/-!
### Stable id assignment (claim C3)

`createDetectedTextarea` (lines 118–135) computes
`id = textarea.id || generated-fresh-id`, stores the generated id in the
`data-pr-conv-id` attribute when the element has no id of its own, and
returns `textarea.id || id`.  The generated id depends on `Date.now()`
and `Math.random()`, so it is modelled as an input `freshId`; crucially,
the function never reads `data-pr-conv-id` back.
-/

/-- The element state `createDetectedTextarea` can read and write. -/
structure TAIdentity where
  elemId : List Char
  dataPrConvId : Option (List Char)
deriving DecidableEq, Repr

/-- `createDetectedTextarea`, returning the record's `id` and the updated
element: `id = textarea.id || freshId`; the fresh id is persisted in
`data-pr-conv-id` when the element lacks an id. -/
def createDetectedTextarea (ta : TAIdentity) (freshId : List Char) :
    List Char × TAIdentity :=
  let id := if ta.elemId.isEmpty then freshId else ta.elemId
  let ta' := if ta.elemId.isEmpty then { ta with dataPrConvId := some id } else ta
  ((if ta.elemId.isEmpty then id else ta.elemId), ta')

/-- C3 evaluated at the failing input: scanning the same id-less textarea
twice (no DOM change in between other than the first scan's own
attribute write) returns two different ids — the second scan ignores the
persisted `data-pr-conv-id` and emits the second generated id, so the
`stableId` of the field changes between scans. -/
theorem createDetectedTextarea_regenerates_id :
    (createDetectedTextarea ⟨[], none⟩ ("pr-conv-textarea-1-a".toList)).1 =
      "pr-conv-textarea-1-a".toList ∧
    (createDetectedTextarea ⟨[], none⟩ ("pr-conv-textarea-1-a".toList)).2.dataPrConvId =
      some ("pr-conv-textarea-1-a".toList) ∧
    (createDetectedTextarea
        (createDetectedTextarea ⟨[], none⟩ ("pr-conv-textarea-1-a".toList)).2
        ("pr-conv-textarea-2-b".toList)).1 = "pr-conv-textarea-2-b".toList ∧
    "pr-conv-textarea-1-a".toList ≠ "pr-conv-textarea-2-b".toList := by
  decide

/-!
### Keyboard shortcut handler (claims C4, C5)

Shallow embedding of the keyboard-handler content script (the variant
the specification was written from: the one that stores the installed
listener in `currentListener` and accepts the `?` and `event.code`
slash variants).  A key event is the tuple of modifier flags plus the
logical `key` and physical `code` strings; the Mac identification
(`navigator.platform` containing `"MAC"`) is the boolean input `isMac`.
-/

/-- JS `String.prototype.split(sep)` for a one-character separator. -/
def splitOnChar (sep : Char) : List Char → List (List Char)
  | [] => [[]]
  | c :: rest =>
    match splitOnChar sep rest with
    | [] => [[]]
    | r :: rs => if c = sep then [] :: r :: rs else (c :: r) :: rs

/-- JS `String.prototype.trim`. -/
def trimChars (s : List Char) : List Char :=
  ((s.dropWhile Char.isWhitespace).reverse.dropWhile Char.isWhitespace).reverse

/-- The modifier tokens recognised in shortcut patterns. -/
def modifierNames : List (List Char) :=
  ["ctrl".toList, "cmd".toList, "command".toList,
    "shift".toList, "alt".toList, "option".toList]

/-- The parts of a keyboard event that `matchesShortcut` reads. -/
structure KeyEvent where
  ctrlKey : Bool
  metaKey : Bool
  shiftKey : Bool
  altKey : Bool
  key : List Char
  code : List Char
deriving DecidableEq, Repr

/-- `matchesShortcut(event, shortcut)` of the keyboard handler: split the
pattern on `'+'`, trim and lower-case the parts, require every listed
modifier (with `cmd` mapping to the meta key on Mac and to the control
key elsewhere), and compare the terminal token against the event's
logical key — accepting, for the slash token, `"/"`, `"?"` and the
physical code `"Slash"` — or, for other tokens, the logical key or the
physical code `"key<token>"`. -/
def matchesShortcut (isMac : Bool) (event : KeyEvent) (shortcut : List Char) : Bool :=
  let parts := (splitOnChar '+' shortcut).map (fun p => lowerStr (trimChars p))
  let needsCtrl := parts.contains ("ctrl".toList)
  let needsCmd := parts.contains ("cmd".toList) || parts.contains ("command".toList)
  let needsShift := parts.contains ("shift".toList)
  let needsAlt := parts.contains ("alt".toList) || parts.contains ("option".toList)
  let modifierKey := if isMac then event.metaKey else event.ctrlKey
  if needsCtrl && !event.ctrlKey then false
  else if needsCmd && !modifierKey then false
  else if needsShift && !event.shiftKey then false
  else if needsAlt && !event.altKey then false
  else
    match parts.find? (fun p => !(modifierNames.contains p)) with
    | none => false
    | some keyPart =>
      let eventKey := lowerStr event.key
      let eventCode := lowerStr event.code
      if keyPart == "slash".toList || keyPart == "/".toList then
        eventKey == "/".toList || eventKey == "?".toList || eventCode == "slash".toList
      else
        eventKey == keyPart || eventCode == ("key".toList ++ keyPart)

/-- C4: for the pattern `"Cmd+Shift+/"` on a Mac-identified platform,
every event with meta and shift held matches when its logical key is
`"/"`, when it is `"?"`, or when its physical code is `"Slash"`
(whatever the logical key); and no event lacking the meta modifier
matches, whatever its other fields. -/
theorem matchesShortcut_cmd_shift_slash_spec (ev : KeyEvent) :
    (ev.metaKey = true → ev.shiftKey = true → ev.key = "/".toList →
      matchesShortcut true ev ("Cmd+Shift+/".toList) = true) ∧
    (ev.metaKey = true → ev.shiftKey = true → ev.key = "?".toList →
      matchesShortcut true ev ("Cmd+Shift+/".toList) = true) ∧
    (ev.metaKey = true → ev.shiftKey = true → ev.code = "Slash".toList →
      matchesShortcut true ev ("Cmd+Shift+/".toList) = true) ∧
    (ev.metaKey = false →
      matchesShortcut true ev ("Cmd+Shift+/".toList) = false) := by
  obtain ⟨ctrl, meta, shift, alt, key, code⟩ := ev
  refine ⟨?_, ?_, ?_, ?_⟩
  · intro hm hs hk
    subst hm; subst hs; subst hk
    rfl
  · intro hm hs hk
    subst hm; subst hs; subst hk
    rfl
  · intro hm hs hk
    subst hm; subst hs; subst hk
    have hc : (lowerStr ("Slash".toList) == "slash".toList) = true := by decide
    calc matchesShortcut true ⟨ctrl, true, true, alt, key, "Slash".toList⟩ ("Cmd+Shift+/".toList)
        = (lowerStr key == "/".toList || lowerStr key == "?".toList ||
            lowerStr ("Slash".toList) == "slash".toList) := rfl
      _ = true := by rw [hc]; simp
  · intro hm
    subst hm
    rfl

/-- Witness for C4 at concrete events: `/` with meta+shift, `?` with
meta+shift, an `a` logical key with physical code `Slash`, and a
meta-less event. -/
theorem matchesShortcut_cmd_shift_slash_witness :
    matchesShortcut true ⟨false, true, true, false, "/".toList, "Slash".toList⟩
      ("Cmd+Shift+/".toList) = true ∧
    matchesShortcut true ⟨false, true, true, false, "?".toList, "Slash".toList⟩
      ("Cmd+Shift+/".toList) = true ∧
    matchesShortcut true ⟨false, true, true, false, "a".toList, "Slash".toList⟩
      ("Cmd+Shift+/".toList) = true ∧
    matchesShortcut true ⟨true, false, true, false, "/".toList, "Slash".toList⟩
      ("Cmd+Shift+/".toList) = false :=
  ⟨(matchesShortcut_cmd_shift_slash_spec _).1 rfl rfl rfl,
    (matchesShortcut_cmd_shift_slash_spec _).2.1 rfl rfl rfl,
    (matchesShortcut_cmd_shift_slash_spec _).2.2.1 rfl rfl rfl,
    (matchesShortcut_cmd_shift_slash_spec _).2.2.2 rfl⟩

/-!
### Shortcut registration state machine (claim C5)

`registerShortcut` first calls `unregisterShortcut`, then installs a
fresh closure as the document keydown listener and remembers it in
`currentListener`; `unregisterShortcut` removes the remembered listener
and clears it, and is a no-op when none is remembered.  Listener
identities are modelled as naturals drawn from a fresh counter (each
registration creates a new closure); the document's listener list obeys
DOM semantics: `addEventListener` appends unless the same listener is
already attached, `removeEventListener` removes it if present.
-/

/-- DOM `addEventListener`: re-adding an attached listener is a no-op. -/
def addListener (l : Nat) (ls : List Nat) : List Nat :=
  if l ∈ ls then ls else ls ++ [l]

/-- DOM `removeEventListener`: removes the listener when attached. -/
def removeListener (l : Nat) (ls : List Nat) : List Nat :=
  ls.erase l

/-- Module state of the keyboard handler: the document's keydown
listeners owned by this module, the remembered `currentListener`, and
the supply of fresh closure identities. -/
structure ShortcutState where
  docKeydown : List Nat
  currentListener : Option Nat
  nextClosure : Nat
deriving DecidableEq, Repr

/-- `unregisterShortcut()`: remove and forget the current listener when
one is remembered, otherwise do nothing. -/
def unregisterShortcut (s : ShortcutState) : ShortcutState :=
  match s.currentListener with
  | some l => { s with docKeydown := removeListener l s.docKeydown, currentListener := none }
  | none => s

/-- `registerShortcut(...)`: always unregister first, then attach and
remember a fresh closure. -/
def registerShortcut (s : ShortcutState) : ShortcutState :=
  let s1 := unregisterShortcut s
  { docKeydown := addListener s1.nextClosure s1.docKeydown,
    currentListener := some s1.nextClosure,
    nextClosure := s1.nextClosure + 1 }

/-- The two module entry points a caller can interleave. -/
inductive ShortcutOp where
  | register : ShortcutOp
  | unregister : ShortcutOp
deriving DecidableEq, Repr

def shortcutStep : ShortcutOp → ShortcutState → ShortcutState
  | ShortcutOp.register, s => registerShortcut s
  | ShortcutOp.unregister, s => unregisterShortcut s

def runShortcutOps (ops : List ShortcutOp) (s : ShortcutState) : ShortcutState :=
  ops.foldl (fun t op => shortcutStep op t) s

/-- The handler module before any registration: no listener attached. -/
def shortcutInit : ShortcutState := ⟨[], none, 0⟩

theorem shortcutStep_inv {s : ShortcutState}
    (h : s.docKeydown = s.currentListener.toList) (op : ShortcutOp) :
    (shortcutStep op s).docKeydown = (shortcutStep op s).currentListener.toList := by
  cases op <;> cases hcl : s.currentListener <;>
    simp [shortcutStep, registerShortcut, unregisterShortcut, addListener, removeListener,
      hcl, h, hcl ▸ h]

theorem runShortcutOps_inv (ops : List ShortcutOp) :
    ∀ s : ShortcutState, s.docKeydown = s.currentListener.toList →
      (runShortcutOps ops s).docKeydown = (runShortcutOps ops s).currentListener.toList := by
  induction ops with
  | nil => intro s h; exact h
  | cons op rest ih => intro s h; exact ih _ (shortcutStep_inv h op)

/-- C5: after any interleaving of `registerShortcut` and
`unregisterShortcut` calls from the initial state, at most one listener
of this module is attached (the attached set is exactly the remembered
`currentListener`); a further `registerShortcut` leaves exactly the one
new listener attached (full swap), a further `unregisterShortcut` leaves
none attached, and `unregisterShortcut` with no remembered listener is a
no-op. -/
theorem shortcut_listener_discipline (ops : List ShortcutOp) :
    (runShortcutOps ops shortcutInit).docKeydown.length ≤ 1 ∧
    (runShortcutOps ops shortcutInit).docKeydown =
      (runShortcutOps ops shortcutInit).currentListener.toList ∧
    (registerShortcut (runShortcutOps ops shortcutInit)).docKeydown =
      [(unregisterShortcut (runShortcutOps ops shortcutInit)).nextClosure] ∧
    (unregisterShortcut (runShortcutOps ops shortcutInit)).docKeydown = [] ∧
    ((runShortcutOps ops shortcutInit).currentListener = none →
      unregisterShortcut (runShortcutOps ops shortcutInit) = runShortcutOps ops shortcutInit) := by
  have hinv : (runShortcutOps ops shortcutInit).docKeydown =
      (runShortcutOps ops shortcutInit).currentListener.toList :=
    runShortcutOps_inv ops shortcutInit rfl
  have hunreg : (unregisterShortcut (runShortcutOps ops shortcutInit)).docKeydown = [] := by
    cases hcl : (runShortcutOps ops shortcutInit).currentListener <;>
      simp [unregisterShortcut, removeListener, hcl, hcl ▸ hinv]
  refine ⟨?_, hinv, ?_, hunreg, ?_⟩
  · rw [hinv]
    cases (runShortcutOps ops shortcutInit).currentListener <;> simp
  · simp [registerShortcut, hunreg, addListener]
  · intro hcl
    simp [unregisterShortcut, hcl]

/-- Witness for C5 at the concrete call sequence register-then-unregister:
one listener at most, and the final unregister on the already-empty state
is a no-op. -/
theorem shortcut_listener_discipline_witness :
    (runShortcutOps [ShortcutOp.register, ShortcutOp.unregister] shortcutInit).docKeydown.length ≤ 1 ∧
    unregisterShortcut (runShortcutOps [ShortcutOp.register, ShortcutOp.unregister] shortcutInit) =
      runShortcutOps [ShortcutOp.register, ShortcutOp.unregister] shortcutInit :=
  ⟨(shortcut_listener_discipline [ShortcutOp.register, ShortcutOp.unregister]).1,
    (shortcut_listener_discipline [ShortcutOp.register, ShortcutOp.unregister]).2.2.2.2 (by decide)⟩

/-!
### Selection overlay / dropdown (claims C6, C10)

Shallow embedding of the dropdown module: the module-level session state
(`currentDropdown`, `currentTextarea`, `currentConventions`,
`filteredConventions`, `selectedIndex`) plus the document's listener
sets.  The search-input and list listeners are attached to the overlay
element itself and leave the document together with it when the element
is removed; the two document-level listeners (`handleClickOutside` on
`click` and `handleEscape` on `keydown`) are module-level named
functions, so `addEventListener` attaches at most one copy of each.
`hideDropdown` removes the overlay element and resets the session state;
it calls no `removeEventListener`.
-/

/-- `Convention` of `lib/types.ts`. -/
structure Convention where
  id : List Char
  label : List Char
  displayName : List Char
  template : List Char
  description : Option (List Char)
  color : Option (List Char)
deriving DecidableEq, Repr

/-- Identity of the module's `handleClickOutside` document listener. -/
def hClickId : Nat := 0

/-- Identity of the module's `handleEscape` document listener. -/
def hEscId : Nat := 1

/-- Module state of the dropdown plus the document-level listener sets
touched by `attachDropdownListeners`. -/
structure DropdownState where
  currentDropdown : Option Nat
  currentTextarea : Option Nat
  currentConventions : List Convention
  filteredConventions : List Convention
  selectedIndex : Nat
  docClick : List Nat
  docKeydown : List Nat
deriving DecidableEq, Repr

/-- `hideDropdown()`: when an overlay is rendered, remove its element
and reset the five session fields; otherwise do nothing.  No listener is
detached. -/
def hideDropdown (s : DropdownState) : DropdownState :=
  match s.currentDropdown with
  | some _ =>
    { s with
        currentDropdown := none, currentTextarea := none,
        currentConventions := [], filteredConventions := [], selectedIndex := 0 }
  | none => s

/-- The document-level half of `attachDropdownListeners`: attach
`handleClickOutside` to the document's `click` listeners and
`handleEscape` to its `keydown` listeners. -/
def attachDropdownListeners (s : DropdownState) : DropdownState :=
  { s with
      docClick := addListener hClickId s.docClick,
      docKeydown := addListener hEscId s.docKeydown }

/-- `showDropdown(anchor, textarea, conventions)`: hide any existing
dropdown, initialise the session (`filteredConventions` is a copy of the
list, `selectedIndex` 0), render a fresh overlay element `elem` into the
document, and attach the listeners. -/
def showDropdown (s : DropdownState) (elem : Nat) (ta : Nat)
    (convs : List Convention) : DropdownState :=
  let s1 := hideDropdown s
  attachDropdownListeners
    { s1 with
        currentTextarea := some ta, currentConventions := convs,
        filteredConventions := convs, selectedIndex := 0, currentDropdown := some elem }

/-- Counterexample to C6: opening the overlay on a page with no listeners
and closing it again leaves the two document-level listeners attached —
the listener sets are not restored to their pre-open state. -/
theorem hideDropdown_leaks_doc_listeners :
    (hideDropdown (showDropdown ⟨none, none, [], [], 0, [], []⟩ 100 1 [])).docClick = [hClickId] ∧
    (hideDropdown (showDropdown ⟨none, none, [], [], 0, [], []⟩ 100 1 [])).docKeydown = [hEscId] ∧
    (hideDropdown (showDropdown ⟨none, none, [], [], 0, [], []⟩ 100 1 [])).docClick ≠
      (⟨none, none, [], [], 0, [], []⟩ : DropdownState).docClick := by
  decide

/-- C6 as amended: closing after an open removes the overlay element and
clears the whole session state, but detaches no listener: the document's
`click` and `keydown` listener sets are exactly those `showDropdown`
left, so the outside-click and Escape listeners attached by open are
still attached after close (each at most once, by `addEventListener`
dedup of the fixed function references). -/
theorem hideDropdown_keeps_doc_listeners (s : DropdownState) (elem ta : Nat)
    (convs : List Convention) :
    (hideDropdown (showDropdown s elem ta convs)).currentDropdown = none ∧
    (hideDropdown (showDropdown s elem ta convs)).currentTextarea = none ∧
    (hideDropdown (showDropdown s elem ta convs)).currentConventions = [] ∧
    (hideDropdown (showDropdown s elem ta convs)).filteredConventions = [] ∧
    (hideDropdown (showDropdown s elem ta convs)).selectedIndex = 0 ∧
    (hideDropdown (showDropdown s elem ta convs)).docClick =
      (showDropdown s elem ta convs).docClick ∧
    (hideDropdown (showDropdown s elem ta convs)).docKeydown =
      (showDropdown s elem ta convs).docKeydown ∧
    hClickId ∈ (hideDropdown (showDropdown s elem ta convs)).docClick ∧
    hEscId ∈ (hideDropdown (showDropdown s elem ta convs)).docKeydown := by
  refine ⟨rfl, rfl, rfl, rfl, rfl, rfl, rfl, ?_, ?_⟩
  · simp [showDropdown, attachDropdownListeners, hideDropdown, addListener]
    split_ifs with h
    · exact h
    · simp
  · simp [showDropdown, attachDropdownListeners, hideDropdown, addListener]
    split_ifs with h
    · exact h
    · simp

/-- C10: closing is idempotent — when no overlay is rendered,
`hideDropdown` leaves the whole state (session fields, document,
listeners) unchanged, and closing twice always equals closing once. -/
theorem hideDropdown_idempotent (s : DropdownState) :
    hideDropdown (hideDropdown s) = hideDropdown s ∧
    (s.currentDropdown = none → hideDropdown s = s) := by
  constructor
  · cases h : s.currentDropdown <;> simp [hideDropdown, h]
  · intro h
    simp [hideDropdown, h]

/-- Witness for C10 at a concrete closed-but-dirty state: close is a
no-op there, and close-twice equals close-once. -/
theorem hideDropdown_idempotent_witness :
    hideDropdown ⟨none, some 5, [], [], 3, [hClickId], [hEscId]⟩ =
      (⟨none, some 5, [], [], 3, [hClickId], [hEscId]⟩ : DropdownState) ∧
    hideDropdown (hideDropdown ⟨none, some 5, [], [], 3, [hClickId], [hEscId]⟩) =
      hideDropdown ⟨none, some 5, [], [], 3, [hClickId], [hEscId]⟩ :=
  ⟨(hideDropdown_idempotent _).2 rfl, (hideDropdown_idempotent _).1⟩

end RFK
